import Mathlib

/-!
Verification of the Segment Window & Transport Resolution Engine of the
`tour_bot` repository (`app/services/planner.py` and
`app/services/transport.py`).

Timestamps are modelled as `Int` minutes since a fixed epoch.  A calendar
date is modelled by its day index, so the `datetime` at midnight of day
`d` is the minute `1440 * d`.  `datetime.replace`, `timedelta` arithmetic
and `datetime.date()` become integer arithmetic; `.date()` is a floor
division because taking the date truncates the time of day.  The choice
of minutes (rather than seconds) as the unit is immaterial to every
property proved here.
-/

/-! ## planner.py -/

/-- `parse_human_date` (planner.py): parses a `YYYY-MM-DD` string and
returns the `datetime` at 00:00 of that day.  The calendar date carried
by the string is abstracted as its day index `day`; the result is the
midnight timestamp of that day. -/
def parse_human_date (day : Int) : Int := 1440 * day

/-- `t.replace(hour=h, minute=m)` on a `datetime` `t`: keep the calendar
day of `t`, set the time of day to `h:m`. -/
def dt_replace_hm (t h m : Int) : Int := 1440 * Int.fdiv t 1440 + 60 * h + m

/-- `SegmentWindow` (planner.py): one travel segment between two adjacent
show cities. -/
structure SegmentWindow where
  from_city : String
  to_city : String
  earliest_departure : Int
  latest_arrival : Int
  concert_from_date : Int
  concert_to_date : Int
  deriving DecidableEq

/-- `build_segments` (planner.py): for each adjacent pair of cities the
show in the first city ends at 23:00 of its show date, the artist must be
ready in the second city at 12:00 of its show date, and the travel window
is widened/narrowed by the two buffers.  `shows` maps a city name to the
day index of its show date (in the source, a dict of `YYYY-MM-DD` strings
parsed by `parse_human_date`; a city missing from the dict would raise,
so the mapping is modelled as total, matching the input constraint that
every listed city has a show date). -/
def build_segments (cities_ordered : List String) (shows : String → Int)
    (buffer_before_hours buffer_after_hours : Int) : List SegmentWindow :=
  match cities_ordered with
  | city_a :: city_b :: rest =>
    let concert_a_day := parse_human_date (shows city_a)
    let concert_a_end := dt_replace_hm concert_a_day 23 0
    let concert_b_day := parse_human_date (shows city_b)
    let must_be_ready_b := dt_replace_hm concert_b_day 12 0
    { from_city := city_a
      to_city := city_b
      earliest_departure := concert_a_end + 60 * buffer_after_hours
      latest_arrival := must_be_ready_b - 60 * buffer_before_hours
      concert_from_date := concert_a_day
      concert_to_date := concert_b_day } ::
      build_segments (city_b :: rest) shows buffer_before_hours buffer_after_hours
  | _ => []

theorem dt_replace_hm_parse (d h m : Int) :
    dt_replace_hm (1440 * d) h m = 1440 * d + 60 * h + m := by
  unfold dt_replace_hm
  rw [Int.mul_fdiv_cancel_left _ (by norm_num)]

theorem build_segments_length (cities : List String) (shows : String → Int) (bb ba : Int) :
    (build_segments cities shows bb ba).length = cities.length - 1 := by
  induction cities with
  | nil => simp [build_segments]
  | cons a rest ih =>
    cases rest with
    | nil => simp [build_segments]
    | cons b rest' =>
      simp only [build_segments, List.length_cons]
      rw [ih]
      simp

theorem build_segments_get? (cities : List String) (shows : String → Int) (bb ba : Int) :
    ∀ i : Nat, (build_segments cities shows bb ba).get? i =
      match cities.get? i, cities.get? (i + 1) with
      | some a, some b => some
          { from_city := a
            to_city := b
            earliest_departure := 1440 * shows a + 60 * 23 + 60 * ba
            latest_arrival := 1440 * shows b + 60 * 12 - 60 * bb
            concert_from_date := 1440 * shows a
            concert_to_date := 1440 * shows b }
      | _, _ => none := by
  induction cities with
  | nil => intro i; simp [build_segments]
  | cons a rest ih =>
    intro i
    cases rest with
    | nil =>
      cases i with
      | zero => simp [build_segments]
      | succ j => simp [build_segments]
    | cons b rest' =>
      cases i with
      | zero =>
        simp [build_segments, parse_human_date, dt_replace_hm_parse]
      | succ j =>
        simp only [build_segments, List.get?_cons_succ]
        exact ih j

/-- C1: for every list of at least two cities with a show date per city
and integer buffers, `build_segments` yields one segment per adjacent
pair `(A, B)`; its `earliest_departure` is 23:00 of A's show date plus
`buffer_after_hours` hours and its `latest_arrival` is 12:00 of B's show
date minus `buffer_before_hours` hours. -/
theorem buildSegments_adjacent_pair_windows (cities : List String)
    (shows : String → Int) (bb ba : Int) (_h2 : 2 ≤ cities.length) :
    (build_segments cities shows bb ba).length = cities.length - 1 ∧
    ∀ i : Nat, ∀ a b : String, cities.get? i = some a → cities.get? (i + 1) = some b →
      (build_segments cities shows bb ba).get? i = some
        { from_city := a
          to_city := b
          earliest_departure := (1440 * shows a + 60 * 23) + 60 * ba
          latest_arrival := (1440 * shows b + 60 * 12) - 60 * bb
          concert_from_date := 1440 * shows a
          concert_to_date := 1440 * shows b } := by
  refine ⟨build_segments_length cities shows bb ba, ?_⟩
  intro i a b ha hb
  rw [build_segments_get? cities shows bb ba i, ha, hb]

/-- Show-date table for the scenario of spec section 8: city `A` plays on
day 0 (2025-11-10), city `B` on day 1 (2025-11-11). -/
def showsAB : String → Int := fun c => if c = "B" then 1 else 0

/-- Witness for C1 at the concrete scenario input. -/
theorem buildSegments_adjacent_pair_windows_witness :
    (build_segments ["A", "B"] showsAB 12 3).length = (["A", "B"] : List String).length - 1 ∧
    ∀ i : Nat, ∀ a b : String,
      (["A", "B"] : List String).get? i = some a →
      (["A", "B"] : List String).get? (i + 1) = some b →
      (build_segments ["A", "B"] showsAB 12 3).get? i = some
        { from_city := a
          to_city := b
          earliest_departure := (1440 * showsAB a + 60 * 23) + 60 * 3
          latest_arrival := (1440 * showsAB b + 60 * 12) - 60 * 12
          concert_from_date := 1440 * showsAB a
          concert_to_date := 1440 * showsAB b } :=
  buildSegments_adjacent_pair_windows ["A", "B"] showsAB 12 3 (by decide)

/-- Default segment used only to state closed counterexamples. -/
def default_segment : SegmentWindow := ⟨"", "", 0, 0, 0, 0⟩

/-- C9 counterexample: in the spec scenario (shows on days 0 and 1,
buffer_before 12, buffer_after 3) the claim's equation
`latest_arrival = show_end(from) + buffer_after` is false, and
`earliest_departure` is not independent of `buffer_after` (it moves when
`buffer_after` changes from 3 to 4). -/
theorem segment_window_c9_counterexample :
    ((build_segments ["A", "B"] showsAB 12 3).headD default_segment).latest_arrival ≠
      (1440 * showsAB "A" + 60 * 23) + 60 * 3 ∧
    ((build_segments ["A", "B"] showsAB 12 3).headD default_segment).earliest_departure ≠
      ((build_segments ["A", "B"] showsAB 12 4).headD default_segment).earliest_departure := by
  constructor
  · decide
  · decide

/-- C9 amended: for every segment produced by `build_segments`,
`earliest_departure = show_end(from) + buffer_after` is monotonically
non-decreasing in `buffer_after` and independent of `buffer_before`,
while `latest_arrival = ready_time(to) - buffer_before` is monotonically
non-increasing in `buffer_before` and independent of `buffer_after`. -/
theorem segment_window_buffer_monotonicity (cities : List String)
    (shows : String → Int) (bb bb' ba ba' : Int) (i : Nat) (s s' : SegmentWindow)
    (hs : (build_segments cities shows bb ba).get? i = some s)
    (hs' : (build_segments cities shows bb' ba').get? i = some s') :
    (ba ≤ ba' → s.earliest_departure ≤ s'.earliest_departure) ∧
    (ba = ba' → s.earliest_departure = s'.earliest_departure) ∧
    (bb ≤ bb' → s'.latest_arrival ≤ s.latest_arrival) ∧
    (bb = bb' → s.latest_arrival = s'.latest_arrival) ∧
    (∀ a : String, cities.get? i = some a →
      s.earliest_departure = (1440 * shows a + 60 * 23) + 60 * ba) ∧
    (∀ b : String, cities.get? (i + 1) = some b →
      s.latest_arrival = (1440 * shows b + 60 * 12) - 60 * bb) := by
  rw [build_segments_get? cities shows bb ba i] at hs
  rw [build_segments_get? cities shows bb' ba' i] at hs'
  rcases ha : cities.get? i with _ | a
  · rw [ha] at hs; simp at hs
  rcases hb : cities.get? (i + 1) with _ | b
  · rw [ha, hb] at hs; simp at hs
  rw [ha, hb] at hs hs'
  simp only [Option.some.injEq] at hs hs'
  subst hs hs'
  refine ⟨?_, ?_, ?_, ?_, ?_, ?_⟩
  · intro h; simp only; omega
  · intro h; simp only [h]
  · intro h; simp only; omega
  · intro h; simp only [h]
  · intro a' ha'
    cases Option.some.inj ha'
    rfl
  · intro b' hb'
    cases Option.some.inj hb'
    rfl

/-- Witness for the amended C9 at the scenario input, with
`buffer_before` moved from 12 to 13 and `buffer_after` from 3 to 4. -/
theorem segment_window_buffer_monotonicity_witness :
    ((3 : Int) ≤ 4 →
      (⟨"A", "B", 1560, 1440, 0, 1440⟩ : SegmentWindow).earliest_departure ≤
        (⟨"A", "B", 1620, 1380, 0, 1440⟩ : SegmentWindow).earliest_departure) ∧
    ((3 : Int) = 4 →
      (⟨"A", "B", 1560, 1440, 0, 1440⟩ : SegmentWindow).earliest_departure =
        (⟨"A", "B", 1620, 1380, 0, 1440⟩ : SegmentWindow).earliest_departure) ∧
    ((12 : Int) ≤ 13 →
      (⟨"A", "B", 1620, 1380, 0, 1440⟩ : SegmentWindow).latest_arrival ≤
        (⟨"A", "B", 1560, 1440, 0, 1440⟩ : SegmentWindow).latest_arrival) ∧
    ((12 : Int) = 13 →
      (⟨"A", "B", 1560, 1440, 0, 1440⟩ : SegmentWindow).latest_arrival =
        (⟨"A", "B", 1620, 1380, 0, 1440⟩ : SegmentWindow).latest_arrival) ∧
    (∀ a : String, (["A", "B"] : List String).get? 0 = some a →
      (⟨"A", "B", 1560, 1440, 0, 1440⟩ : SegmentWindow).earliest_departure =
        (1440 * showsAB a + 60 * 23) + 60 * 3) ∧
    (∀ b : String, (["A", "B"] : List String).get? (0 + 1) = some b →
      (⟨"A", "B", 1560, 1440, 0, 1440⟩ : SegmentWindow).latest_arrival =
        (1440 * showsAB b + 60 * 12) - 60 * 12) :=
  segment_window_buffer_monotonicity ["A", "B"] showsAB 12 13 3 4 0
    ⟨"A", "B", 1560, 1440, 0, 1440⟩ ⟨"A", "B", 1620, 1380, 0, 1440⟩
    (by decide) (by decide)

/-! ## transport.py: data model -/

/-- `TransportType` (transport.py): `Literal["plane", "train", "other"]`. -/
inductive TransportType where
  | plane
  | train
  | other
  deriving DecidableEq

/-- `PlaceCodes` (transport.py). -/
structure PlaceCodes where
  city_code : Option String
  stations : List String
  deriving DecidableEq

/-- `TransportOption` (transport.py).  `duration_hours` is a Python float
computed by exact division by 3600; it is carried here as an exact
rational and never inspected by any property below. -/
structure TransportOption where
  kind : TransportType
  title : String
  depart_time : Int
  arrive_time : Int
  duration_hours : Rat
  thread_uid : Option String
  from_code : Option String
  to_code : Option String
  price : Option Rat
  currency : Option String
  deriving DecidableEq

/-- Python truthiness of an optional string: `None` and `""` are falsy. -/
def py_str_falsy : Option String → Bool
  | none => true
  | some s => decide (s = "")

/-- Python `a or b` where `a` is an optional string and `b` a string:
returns `b` when `a` is `None` or empty. -/
def py_str_or (a : Option String) (b : String) : String :=
  match a with
  | some s => if s = "" then b else s
  | none => b

/-! ## transport.py: city-name normalization and location resolution -/

/-- Python `str.lower` on one character, for the alphabets this program
actually handles: ASCII letters and the Cyrillic letters of the static
city table.  (CPython lowercases the full Unicode range; only these two
blocks occur in the strings reasoned about here.) -/
def py_lower_char (c : Char) : Char :=
  if 'A' ≤ c ∧ c ≤ 'Z' then Char.ofNat (c.toNat + 32)
  else if 'А' ≤ c ∧ c ≤ 'Я' then Char.ofNat (c.toNat + 32)
  else if c = 'Ё' then 'ё'
  else c

/-- Python `str.split()` with no argument: split on runs of whitespace,
producing no empty tokens.  `cur` accumulates the current token in
reverse. -/
def py_split_ws : List Char → List Char → List (List Char)
  | [], cur => if cur.isEmpty then [] else [cur.reverse]
  | c :: cs, cur =>
    if c.isWhitespace then
      if cur.isEmpty then py_split_ws cs []
      else cur.reverse :: py_split_ws cs []
    else py_split_ws cs (c :: cur)

/-- Python `str.strip()`: drop leading and trailing whitespace. -/
def py_strip (l : List Char) : List Char :=
  ((l.dropWhile Char.isWhitespace).reverse.dropWhile Char.isWhitespace).reverse

/-- `_normalize_city_key` (transport.py):
`" ".join(name.strip().lower().split())` — case-fold, then collapse runs
of whitespace to single spaces.  (No dash handling appears in the
source.) -/
def normalize_city_key (name : String) : String :=
  String.mk (List.intercalate [' '] (py_split_ws ((py_strip name.data).map py_lower_char) []))

/-- `CITY_CODE_MAP` (transport.py): the static override table of known
cities, consulted by verbatim (unnormalized) city name.  Entries carry
only a `city_code`; `mapped.get("stations", ())` then yields `()`. -/
def CITY_CODE_MAP : String → Option PlaceCodes := fun city =>
  if city = "Москва" then some ⟨some "c213", []⟩
  else if city = "Санкт-Петербург" then some ⟨some "c2", []⟩
  else if city = "Екатеринбург" then some ⟨some "c54", []⟩
  else none

/-- Result of one `_resolve_place_codes` call: the codes returned, the
state of the module-level `_city_cache` afterwards, and whether the
remote `suggest_place` call was made. -/
structure ResolveResult where
  codes : PlaceCodes
  cache : List (String × PlaceCodes)
  remote_called : Bool
  deriving DecidableEq

/-- `_resolve_place_codes` (transport.py).  The process-wide `_city_cache`
dict is passed explicitly as an association list (the code inserts a key
only when it is absent, so prepending models dict insertion exactly); the
provider's `suggest_place` network call is the oracle `suggest`, and
`remote_called` records whether it was awaited.  Lookup order in the
source: cache first, then the static override table, then the remote
suggest call. -/
def resolve_place_codes (cache : List (String × PlaceCodes))
    (suggest : String → PlaceCodes) (city : String) : ResolveResult :=
  let key := normalize_city_key city
  match List.lookup key cache with
  | some pc => ⟨pc, cache, false⟩
  | none =>
    match CITY_CODE_MAP city with
    | some pc => ⟨pc, (key, pc) :: cache, false⟩
    | none => ⟨suggest city, (key, suggest city) :: cache, true⟩

/-- Suggest oracle used only in concrete resolution scenarios. -/
def suggest_c999 : String → PlaceCodes := fun _ => ⟨some "c999", []⟩

/-- C5 counterexample: `_normalize_city_key` does not unify dash variants
with spaces, so a city cached under its dash spelling is missed by the
space-variant spelling, and the resolver performs a remote suggest call
and returns the remote result instead of the cached code. -/
theorem normalize_city_key_dash_counterexample :
    normalize_city_key "Sankt-Peterburg" ≠ normalize_city_key "Sankt Peterburg" ∧
    (resolve_place_codes [("sankt-peterburg", ⟨some "c100", []⟩)] suggest_c999
        "Sankt Peterburg").remote_called = true ∧
    (resolve_place_codes [("sankt-peterburg", ⟨some "c100", []⟩)] suggest_c999
        "Sankt Peterburg").codes ≠ ⟨some "c100", []⟩ := by
  refine ⟨by decide, by decide, by decide⟩

/-- C5 amended: normalization case-folds and collapses whitespace (it
does not touch dashes); any two spellings with the same normalized key
hit the same cache entry, so after resolving one spelling, resolving the
other returns the identical codes without a remote call and without
changing the cache. -/
theorem resolve_cache_hit_on_equal_normalized_key
    (cache : List (String × PlaceCodes)) (suggest : String → PlaceCodes)
    (v1 v2 : String) (h : normalize_city_key v1 = normalize_city_key v2) :
    resolve_place_codes (resolve_place_codes cache suggest v1).cache suggest v2 =
      ⟨(resolve_place_codes cache suggest v1).codes,
       (resolve_place_codes cache suggest v1).cache, false⟩ := by
  unfold resolve_place_codes
  rw [← h]
  rcases hl : List.lookup (normalize_city_key v1) cache with _ | pc
  · rcases hm : CITY_CODE_MAP v1 with _ | pc
    · simp [hl, hm, List.lookup]
    · simp [hl, hm, List.lookup]
  · simp [hl]

/-- Witness for the amended C5: a whitespace/case variant of an
already-resolved name is served from the cache with no remote call. -/
theorem resolve_cache_hit_on_equal_normalized_key_witness :
    resolve_place_codes
        (resolve_place_codes [] suggest_c999 " Sankt  Peterburg ").cache suggest_c999
        "sankt peterburg" =
      ⟨(resolve_place_codes [] suggest_c999 " Sankt  Peterburg ").codes,
       (resolve_place_codes [] suggest_c999 " Sankt  Peterburg ").cache, false⟩ :=
  resolve_cache_hit_on_equal_normalized_key [] suggest_c999
    " Sankt  Peterburg " "sankt peterburg" (by decide)

/-- C6 counterexample: the resolver consults the cache before the static
override table, so a cache entry stored under the normalized key (here
"москва", as left by a previous resolution of a differently-cased
spelling) shadows the override entry for "Москва": the returned code is
the cached `c999`, not the override `c213`. -/
theorem resolve_override_shadowed_counterexample :
    CITY_CODE_MAP "Москва" = some ⟨some "c213", []⟩ ∧
    (resolve_place_codes [("москва", ⟨some "c999", []⟩)] (fun _ => ⟨none, []⟩)
        "Москва").codes = ⟨some "c999", []⟩ ∧
    ((⟨some "c999", []⟩ : PlaceCodes) ≠ ⟨some "c213", []⟩) := by
  refine ⟨by decide, by decide, by decide⟩

/-- C6 amended: the lookup order of `_resolve_place_codes` is (1) cache
under the normalized name, (2) static override table under the verbatim
name, (3) remote suggest call; a cached entry wins over the override
table, and the override is returned verbatim (and cached) only on a cache
miss; the remote call happens only when both miss. -/
theorem resolve_lookup_order (cache : List (String × PlaceCodes))
    (suggest : String → PlaceCodes) (city : String) :
    (∀ pc, List.lookup (normalize_city_key city) cache = some pc →
      resolve_place_codes cache suggest city = ⟨pc, cache, false⟩) ∧
    (List.lookup (normalize_city_key city) cache = none →
      ∀ pc, CITY_CODE_MAP city = some pc →
      resolve_place_codes cache suggest city =
        ⟨pc, (normalize_city_key city, pc) :: cache, false⟩) ∧
    (List.lookup (normalize_city_key city) cache = none →
      CITY_CODE_MAP city = none →
      resolve_place_codes cache suggest city =
        ⟨suggest city, (normalize_city_key city, suggest city) :: cache, true⟩) := by
  refine ⟨?_, ?_, ?_⟩
  · intro pc hl
    simp only [resolve_place_codes, hl]
  · intro hl pc hm
    simp only [resolve_place_codes, hl, hm]
  · intro hl hm
    simp only [resolve_place_codes, hl, hm]

/-- Witness for the amended C6 at the shadowed-cache input. -/
theorem resolve_lookup_order_witness :
    (∀ pc, List.lookup (normalize_city_key "Москва")
        [("москва", (⟨some "c999", []⟩ : PlaceCodes))] = some pc →
      resolve_place_codes [("москва", ⟨some "c999", []⟩)] suggest_c999 "Москва" =
        ⟨pc, [("москва", ⟨some "c999", []⟩)], false⟩) ∧
    (List.lookup (normalize_city_key "Москва")
        [("москва", (⟨some "c999", []⟩ : PlaceCodes))] = none →
      ∀ pc, CITY_CODE_MAP "Москва" = some pc →
      resolve_place_codes [("москва", ⟨some "c999", []⟩)] suggest_c999 "Москва" =
        ⟨pc, (normalize_city_key "Москва", pc) :: [("москва", ⟨some "c999", []⟩)], false⟩) ∧
    (List.lookup (normalize_city_key "Москва")
        [("москва", (⟨some "c999", []⟩ : PlaceCodes))] = none →
      CITY_CODE_MAP "Москва" = none →
      resolve_place_codes [("москва", ⟨some "c999", []⟩)] suggest_c999 "Москва" =
        ⟨suggest_c999 "Москва",
         (normalize_city_key "Москва", suggest_c999 "Москва") :: [("москва", ⟨some "c999", []⟩)],
         true⟩) :=
  resolve_lookup_order [("москва", ⟨some "c999", []⟩)] suggest_c999 "Москва"

/-! ## transport.py: the retry loop of YandexRaspClient._get_json -/

/-- Outcome of one HTTP GET attempt: a provider response carrying a
status code and a parsed JSON body, or a connection/timeout error
(`aiohttp.ClientError` / `asyncio.TimeoutError`). -/
inductive HttpAttempt (β : Type) where
  | response (status : Nat) (body : β)
  | connError

/-- The provider statuses `_get_json` treats as transient. -/
def transient_statuses : List Nat := [429, 500, 502, 503, 504]

/-- The `backoffs` schedule of `_get_json`, in seconds. -/
def backoffs : List Rat := [0.5, 1, 2, 4]

/-- Trace of one `_get_json` call: the returned value (`none` models the
empty dict `{}` returned on failure), the number of GET requests issued,
and the backoff delays slept, in order. -/
structure GetJsonTrace (β : Type) where
  result : Option β
  requests : Nat
  slept : List Rat

/-- The body of `_get_json` (transport.py): one iteration per backoff
delay; a 200 response returns its JSON; a transient status or a
connection error sleeps the delay and retries; any other status returns
the empty dict at once; an exhausted loop returns the empty dict.
`responses` gives the outcome of the i-th GET request. -/
def get_json_go {β : Type} (responses : Nat → HttpAttempt β) :
    List Rat → Nat → List Rat → GetJsonTrace β
  | [], i, slept => ⟨none, i, slept⟩
  | d :: ds, i, slept =>
    match responses i with
    | .response status body =>
      if status = 200 then ⟨some body, i + 1, slept⟩
      else if status ∈ transient_statuses then
        get_json_go responses ds (i + 1) (slept ++ [d])
      else ⟨none, i + 1, slept⟩
    | .connError => get_json_go responses ds (i + 1) (slept ++ [d])

/-- `YandexRaspClient._get_json` (transport.py). -/
def get_json {β : Type} (responses : Nat → HttpAttempt β) : GetJsonTrace β :=
  get_json_go responses backoffs 0 []

/-- An attempt outcome that makes `_get_json` sleep and retry. -/
def is_transient {β : Type} : HttpAttempt β → Bool
  | .response status _ => !(decide (status = 200)) && decide (status ∈ transient_statuses)
  | .connError => true

theorem get_json_go_transient {β : Type} (responses : Nat → HttpAttempt β)
    {i : Nat} (h : is_transient (responses i) = true) {d : Rat} {ds : List Rat}
    {slept : List Rat} :
    get_json_go responses (d :: ds) i slept =
      get_json_go responses ds (i + 1) (slept ++ [d]) := by
  rcases hr : responses i with ⟨s, body⟩ | _
  · rw [hr] at h
    simp only [is_transient, Bool.and_eq_true, Bool.not_eq_true', decide_eq_false_iff_not,
      decide_eq_true_eq] at h
    simp only [get_json_go, hr, if_neg h.1, if_pos h.2]
  · simp only [get_json_go, hr]

theorem get_json_go_success {β : Type} (responses : Nat → HttpAttempt β)
    {i : Nat} {body : β} (h : responses i = .response 200 body) {d : Rat}
    {ds : List Rat} {slept : List Rat} :
    get_json_go responses (d :: ds) i slept = ⟨some body, i + 1, slept⟩ := by
  simp [get_json_go, h]

theorem get_json_go_hard {β : Type} (responses : Nat → HttpAttempt β)
    {i : Nat} {s : Nat} {body : β} (h : responses i = .response s body)
    (h200 : s ≠ 200) (htr : s ∉ transient_statuses) {d : Rat} {ds : List Rat}
    {slept : List Rat} :
    get_json_go responses (d :: ds) i slept = ⟨none, i + 1, slept⟩ := by
  simp only [get_json_go, h, if_neg h200, if_neg htr]

theorem get_json_go_requests_le {β : Type} (responses : Nat → HttpAttempt β) :
    ∀ (ds : List Rat) (i : Nat) (slept : List Rat),
      (get_json_go responses ds i slept).requests ≤ i + ds.length := by
  intro ds
  induction ds with
  | nil => intro i slept; simp [get_json_go]
  | cons d ds ih =>
    intro i slept
    rcases hr : responses i with ⟨s, body⟩ | _
    · by_cases h200 : s = 200
      · simp only [get_json_go, hr, if_pos h200, List.length_cons]
        omega
      · by_cases htr : s ∈ transient_statuses
        · simp only [get_json_go, hr, if_neg h200, if_pos htr, List.length_cons]
          have := ih (i + 1) (slept ++ [d])
          omega
        · simp only [get_json_go, hr, if_neg h200, if_neg htr, List.length_cons]
          omega
    · simp only [get_json_go, hr, List.length_cons]
      have := ih (i + 1) (slept ++ [d])
      omega

/-- C4: for every sequence of attempt outcomes, `_get_json` issues at
most 4 GET requests; if the first 4 outcomes are all transient
(connection/timeout errors or statuses in {429,500,502,503,504}) it
retries through all of them, sleeping the backoff delays 0.5s, 1s, 2s,
4s, and then returns the empty result instead of raising; if the first
non-transient outcome is any other non-200 status it returns the empty
result immediately with no further request; and a 200 response returns
its body. -/
theorem get_json_retry_policy {β : Type} (responses : Nat → HttpAttempt β) :
    (get_json responses).requests ≤ 4 ∧
    ((∀ i, i < 4 → is_transient (responses i) = true) →
      get_json responses = ⟨none, 4, backoffs⟩) ∧
    (∀ k, k < 4 → (∀ i, i < k → is_transient (responses i) = true) →
      ∀ s body, responses k = .response s body → s ≠ 200 → s ∉ transient_statuses →
      get_json responses = ⟨none, k + 1, backoffs.take k⟩) ∧
    (∀ k, k < 4 → (∀ i, i < k → is_transient (responses i) = true) →
      ∀ body, responses k = .response 200 body →
      get_json responses = ⟨some body, k + 1, backoffs.take k⟩) := by
  refine ⟨?_, ?_, ?_, ?_⟩
  · have := get_json_go_requests_le responses backoffs 0 []
    simpa [get_json, backoffs] using this
  · intro h
    simp only [get_json, backoffs]
    rw [get_json_go_transient responses (h 0 (by norm_num)),
      get_json_go_transient responses (h 1 (by norm_num)),
      get_json_go_transient responses (h 2 (by norm_num)),
      get_json_go_transient responses (h 3 (by norm_num))]
    simp [get_json_go, backoffs]
  · intro k hk h s body hr h200 htr
    interval_cases k
    · simp only [get_json, backoffs]
      rw [get_json_go_hard responses hr h200 htr]
      simp [backoffs]
    · simp only [get_json, backoffs]
      rw [get_json_go_transient responses (h 0 (by norm_num)),
        get_json_go_hard responses hr h200 htr]
      simp [backoffs]
    · simp only [get_json, backoffs]
      rw [get_json_go_transient responses (h 0 (by norm_num)),
        get_json_go_transient responses (h 1 (by norm_num)),
        get_json_go_hard responses hr h200 htr]
      simp [backoffs]
    · simp only [get_json, backoffs]
      rw [get_json_go_transient responses (h 0 (by norm_num)),
        get_json_go_transient responses (h 1 (by norm_num)),
        get_json_go_transient responses (h 2 (by norm_num)),
        get_json_go_hard responses hr h200 htr]
      simp [backoffs]
  · intro k hk h body hr
    interval_cases k
    · simp only [get_json, backoffs]
      rw [get_json_go_success responses hr]
      simp [backoffs]
    · simp only [get_json, backoffs]
      rw [get_json_go_transient responses (h 0 (by norm_num)),
        get_json_go_success responses hr]
      simp [backoffs]
    · simp only [get_json, backoffs]
      rw [get_json_go_transient responses (h 0 (by norm_num)),
        get_json_go_transient responses (h 1 (by norm_num)),
        get_json_go_success responses hr]
      simp [backoffs]
    · simp only [get_json, backoffs]
      rw [get_json_go_transient responses (h 0 (by norm_num)),
        get_json_go_transient responses (h 1 (by norm_num)),
        get_json_go_transient responses (h 2 (by norm_num)),
        get_json_go_success responses hr]
      simp [backoffs]

/-- Attempt outcomes that always fail with a connection error. -/
def responses_conn : Nat → HttpAttempt Unit := fun _ => HttpAttempt.connError

/-- Witness for C4 at the always-connection-error input. -/
theorem get_json_retry_policy_witness :
    (get_json responses_conn).requests ≤ 4 ∧
    ((∀ i, i < 4 → is_transient (responses_conn i) = true) →
      get_json responses_conn = ⟨none, 4, backoffs⟩) ∧
    (∀ k, k < 4 → (∀ i, i < k → is_transient (responses_conn i) = true) →
      ∀ s body, responses_conn k = .response s body → s ≠ 200 → s ∉ transient_statuses →
      get_json responses_conn = ⟨none, k + 1, backoffs.take k⟩) ∧
    (∀ k, k < 4 → (∀ i, i < k → is_transient (responses_conn i) = true) →
      ∀ body, responses_conn k = .response 200 body →
      get_json responses_conn = ⟨some body, k + 1, backoffs.take k⟩) :=
  get_json_retry_policy responses_conn

/-! ## transport.py: parsing provider route segments -/

/-- One raw route segment of a provider search response, after JSON field
access: the `thread` fields, the `departure`/`arrival` timestamps already
taken through `_parse_dt_iso` (`none` stands for a missing or
unparseable timestamp), `duration` in seconds (`none` when absent or
non-numeric), `from.code`/`to.code`, and the price data extracted by
`_extract_price`. -/
structure RawSegment where
  transport_type : Option String
  title : Option String
  number : Option String
  uid : Option String
  departure : Option Int
  arrival : Option Int
  duration : Option Int
  from_code : Option String
  to_code : Option String
  price : Option Rat
  currency : Option String
  deriving DecidableEq

/-- Python `to_code in allow_to_codes` for the optional `to_code`:
`None` is not a member of a set of strings. -/
def opt_mem (oc : Option String) (l : List String) : Bool :=
  match oc with
  | some c => decide (c ∈ l)
  | none => false

/-- `_segment_to_option` (transport.py): drop the segment when either
timestamp is missing; otherwise build a `TransportOption`.  `kind` falls
back to `other`; `title` falls back to the thread number and then to the
constant "рейс/поезд"; `duration_hours` uses the provider duration when
it is a positive number and the timestamp difference otherwise (the
timestamps being minutes here, seconds are minutes times 60). -/
def segment_to_option (seg : RawSegment) : Option TransportOption :=
  let transport_type := py_str_or seg.transport_type "other"
  let kind : TransportType :=
    if transport_type = "plane" then .plane
    else if transport_type = "train" then .train
    else .other
  match seg.departure, seg.arrival with
  | some dep_dt, some arr_dt =>
    let dur_h : Rat :=
      match seg.duration with
      | some d => if d > 0 then (d : Rat) / 3600 else (((arr_dt - dep_dt) * 60 : Int) : Rat) / 3600
      | none => (((arr_dt - dep_dt) * 60 : Int) : Rat) / 3600
    some
      { kind := kind
        title := py_str_or seg.title (py_str_or seg.number "рейс/поезд")
        depart_time := dep_dt
        arrive_time := arr_dt
        duration_hours := dur_h
        thread_uid := seg.uid
        from_code := seg.from_code
        to_code := seg.to_code
        price := seg.price
        currency := seg.currency }
  | _, _ => none

/-- `_parse_segments` (transport.py): skip entries whose destination code
is not among the allowed codes (only when the allowed set is non-empty —
Python truthiness of the set), then parse each entry, dropping
unparseable ones. -/
def parse_segments (segments : List RawSegment) (allow_to_codes : List String) :
    List TransportOption :=
  match segments with
  | [] => []
  | seg :: rest =>
    if !allow_to_codes.isEmpty && !opt_mem seg.to_code allow_to_codes then
      parse_segments rest allow_to_codes
    else
      match segment_to_option seg with
      | some opt => opt :: parse_segments rest allow_to_codes
      | none => parse_segments rest allow_to_codes

/-! ## transport.py: pagination of _search_all_options_for_date -/

/-- One provider search-response page: its route segments and the
`pagination.total` field (`none` when the response carries no pagination
total, e.g. the empty dict returned by `_get_json` on failure). -/
structure RawPage where
  segments : List RawSegment
  total : Option Int
  deriving DecidableEq

/-- The page loop of `_search_all_options_for_date` (transport.py).
`pages` maps a request offset to the page the provider returns for it;
the fuel counts the remaining iterations of `for _ in range(max_pages)`.
Besides the accumulated options the model returns the list of offsets at
which search requests were issued, in order, so that the request count
and offsets are stated exactly. -/
def search_pages (pages : Int → RawPage) (allow_to_codes : List String) :
    Nat → Int → List TransportOption × List Int
  | 0, _ => ([], [])
  | fuel + 1, offset =>
    let resp := pages offset
    let parsed := parse_segments resp.segments allow_to_codes
    match resp.total with
    | none => (parsed, [offset])
    | some total =>
      if offset + 100 ≥ total ∨ parsed = [] then (parsed, [offset])
      else
        let rest := search_pages pages allow_to_codes fuel (offset + 100)
        (parsed ++ rest.1, offset :: rest.2)

/-- `_search_all_options_for_date` (transport.py): page limit 100,
`max_pages` 10, starting at offset 0. -/
def search_all_options_for_date (pages : Int → RawPage)
    (allow_to_codes : List String) : List TransportOption × List Int :=
  search_pages pages allow_to_codes 10 0

/-- The continuation condition of the pagination loop at a given offset:
the provider reported a total, strictly more results than
`offset + limit`, and the current page parsed to at least one option. -/
def page_continues (pages : Int → RawPage) (allow_to_codes : List String)
    (offset : Int) : Bool :=
  match (pages offset).total with
  | none => false
  | some total =>
    decide (offset + 100 < total) &&
      !(parse_segments (pages offset).segments allow_to_codes).isEmpty

theorem range_succ_map {α : Type} (f : Nat → α) (n : Nat) :
    (List.range (n + 1)).map f = f 0 :: (List.range n).map (fun k => f (k + 1)) := by
  rw [List.range_succ_eq_map, List.map_cons, List.map_map]
  rfl

theorem search_pages_offsets_spec (pages : Int → RawPage) (allow : List String) :
    ∀ (fuel : Nat) (off : Int), 1 ≤ fuel →
      (search_pages pages allow fuel off).2.length ≤ fuel ∧
      1 ≤ (search_pages pages allow fuel off).2.length ∧
      (search_pages pages allow fuel off).2 =
        (List.range (search_pages pages allow fuel off).2.length).map
          (fun k : Nat => off + 100 * (k : Int)) ∧
      (∀ k : Nat, k + 1 < (search_pages pages allow fuel off).2.length →
        page_continues pages allow (off + 100 * (k : Int)) = true) ∧
      ((search_pages pages allow fuel off).2.length < fuel →
        page_continues pages allow
          (off + 100 * ((((search_pages pages allow fuel off).2.length - 1 : Nat)) : Int)) =
          false) := by
  intro fuel
  induction fuel with
  | zero => intro off h; omega
  | succ f ih =>
    intro off _
    rcases ht : (pages off).total with _ | total
    · have hr : (search_pages pages allow (f + 1) off).2 = [off] := by
        simp only [search_pages, ht]
      refine ⟨?_, ?_, ?_, ?_, ?_⟩
      · rw [hr]; simp
      · rw [hr]; simp
      · rw [hr]; simp [List.range_succ]
      · intro k hk; rw [hr] at hk; simp at hk
      · intro _
        rw [hr]
        simp only [List.length_cons, List.length_nil, Nat.sub_self, Nat.cast_zero,
          mul_zero, add_zero]
        simp [page_continues, ht]
    · by_cases hstop : off + 100 ≥ total ∨ parse_segments (pages off).segments allow = []
      · have hr : (search_pages pages allow (f + 1) off).2 = [off] := by
          simp only [search_pages, ht, if_pos hstop]
        refine ⟨?_, ?_, ?_, ?_, ?_⟩
        · rw [hr]; simp
        · rw [hr]; simp
        · rw [hr]; simp [List.range_succ]
        · intro k hk; rw [hr] at hk; simp at hk
        · intro _
          rw [hr]
          simp only [List.length_cons, List.length_nil, Nat.sub_self, Nat.cast_zero,
            mul_zero, add_zero]
          simp only [page_continues, ht]
          rcases hstop with hs | hs
          · simp [show ¬(off + 100 < total) from by omega]
          · simp [hs]
      · have hpush : off + 100 < total ∧ parse_segments (pages off).segments allow ≠ [] := by
          push_neg at hstop
          exact hstop
        have hcont : page_continues pages allow off = true := by
          simp only [page_continues, ht]
          simp [List.isEmpty_iff, hpush.2, hpush.1]
        by_cases hf : f = 0
        · subst hf
          have hr : (search_pages pages allow 1 off).2 = [off] := by
            simp only [search_pages, ht, if_neg hstop]
          refine ⟨?_, ?_, ?_, ?_, ?_⟩
          · rw [hr]; simp
          · rw [hr]; simp
          · rw [hr]; simp [List.range_succ]
          · intro k hk; rw [hr] at hk; simp at hk
          · intro hlen; rw [hr] at hlen; simp at hlen
        · have hf1 : 1 ≤ f := by omega
          obtain ⟨ih1, ih2, ih3, ih4, ih5⟩ := ih (off + 100) hf1
          have hr : (search_pages pages allow (f + 1) off).2 =
              off :: (search_pages pages allow f (off + 100)).2 := by
            simp only [search_pages, ht, if_neg hstop]
          refine ⟨?_, ?_, ?_, ?_, ?_⟩
          · rw [hr]; simp only [List.length_cons]; omega
          · rw [hr]; simp
          · rw [hr]
            simp only [List.length_cons]
            rw [range_succ_map]
            simp only [List.cons.injEq]
            constructor
            · simp
            · rw [ih3]
              simp only [List.length_map, List.length_range]
              refine List.map_congr_left ?_
              intro k _
              push_cast
              ring
          · intro k hk
            rw [hr] at hk
            simp only [List.length_cons] at hk
            cases k with
            | zero => simpa using hcont
            | succ k' =>
              have hk' := ih4 k' (by omega)
              have harith : off + 100 * ((k' + 1 : Nat) : Int) = off + 100 + 100 * (k' : Int) := by
                push_cast
                ring
              rw [harith]
              exact hk'
          · intro hlen
            rw [hr] at hlen ⊢
            simp only [List.length_cons] at hlen ⊢
            have hn1 : 1 ≤ (search_pages pages allow f (off + 100)).2.length := ih2
            have hfalse := ih5 (by omega)
            have harith :
                off + 100 * (((search_pages pages allow f (off + 100)).2.length + 1 - 1 : Nat) : Int) =
                off + 100 + 100 * ((((search_pages pages allow f (off + 100)).2.length - 1 : Nat)) : Int) := by
              rw [Nat.add_sub_cancel, Nat.cast_sub hn1]
              push_cast
              ring
            rw [harith]
            exact hfalse

/-- A provider that always reports 200 total results but returns pages
with no parseable segments. -/
def pages_inconsistent : Int → RawPage := fun _ => ⟨[], some 200⟩

/-- C7 counterexample: with the provider reporting a total of 200
(strictly more than the 100 results already requested), the loop still
stops after a single request because the first page parsed to no
options — so pagination does not continue "exactly while the provider
reports more results than already fetched". -/
theorem pagination_c7_counterexample :
    (pages_inconsistent 0).total = some 200 ∧ (0 : Int) + 100 < 200 ∧
    (search_all_options_for_date pages_inconsistent ["c2"]).2 = [0] := by
  refine ⟨rfl, by norm_num, by decide⟩

/-- C7 amended: for every (date, transport-type) query the pagination
loop issues at least one request; the requested offsets are exactly
0, 100, 200, ... in order; every request after the first was preceded by
a page satisfying the continuation condition (the provider reported a
total strictly greater than offset+limit AND the page parsed to at least
one option); if the loop stopped before the 10-page ceiling, the last
page failed that condition; and in all cases at most 10 page requests
are issued regardless of the provider-reported totals. -/
theorem pagination_bounded_and_exact (pages : Int → RawPage) (allow : List String) :
    (search_all_options_for_date pages allow).2.length ≤ 10 ∧
    1 ≤ (search_all_options_for_date pages allow).2.length ∧
    (search_all_options_for_date pages allow).2 =
      (List.range (search_all_options_for_date pages allow).2.length).map
        (fun k : Nat => (0 : Int) + 100 * (k : Int)) ∧
    (∀ k : Nat, k + 1 < (search_all_options_for_date pages allow).2.length →
      page_continues pages allow ((0 : Int) + 100 * (k : Int)) = true) ∧
    ((search_all_options_for_date pages allow).2.length < 10 →
      page_continues pages allow
        ((0 : Int) + 100 *
          ((((search_all_options_for_date pages allow).2.length - 1 : Nat)) : Int)) = false) :=
  search_pages_offsets_spec pages allow 10 0 (by norm_num)

/-- Witness for the amended C7 at the inconsistent-provider input. -/
theorem pagination_bounded_and_exact_witness :
    (search_all_options_for_date pages_inconsistent ["c2"]).2.length ≤ 10 ∧
    1 ≤ (search_all_options_for_date pages_inconsistent ["c2"]).2.length ∧
    (search_all_options_for_date pages_inconsistent ["c2"]).2 =
      (List.range (search_all_options_for_date pages_inconsistent ["c2"]).2.length).map
        (fun k : Nat => (0 : Int) + 100 * (k : Int)) ∧
    (∀ k : Nat, k + 1 < (search_all_options_for_date pages_inconsistent ["c2"]).2.length →
      page_continues pages_inconsistent ["c2"] ((0 : Int) + 100 * (k : Int)) = true) ∧
    ((search_all_options_for_date pages_inconsistent ["c2"]).2.length < 10 →
      page_continues pages_inconsistent ["c2"]
        ((0 : Int) + 100 *
          ((((search_all_options_for_date pages_inconsistent ["c2"]).2.length - 1 : Nat)) : Int)) =
        false) :=
  pagination_bounded_and_exact pages_inconsistent ["c2"]

/-! ## transport.py: filter_and_sort_options

Python's `sorted` is a stable sort.  A stable sort with respect to a
total preorder on keys is extensionally unique, and stable insertion sort
realizes it: each element is inserted into the sorted tail before the
first element whose key is not smaller, i.e. before all elements of equal
key that originally came later. -/

/-- Stable insertion of `x` into `l`: `x` goes before the first `y` with
`le x y` (for `le` comparing sort keys, `x` lands before every
equal-keyed element of `l`). -/
def stable_insert {α : Type} (le : α → α → Bool) (x : α) : List α → List α
  | [] => [x]
  | y :: ys => if le x y then x :: y :: ys else y :: stable_insert le x ys

/-- Stable insertion sort: the model of Python `sorted(l, key=...)` with
`le a b` meaning `key a <= key b`. -/
def py_sorted {α : Type} (le : α → α → Bool) : List α → List α
  | [] => []
  | x :: xs => stable_insert le x (py_sorted le xs)

/-- `filter_and_sort_options` (transport.py).  Note the preference
strings the source actually matches: `"plane"` and `"train"` select the
filter-only branches; `"plane_first"` and `"train_first"` stable-sort by
a 0/1 key; anything else returns the input unchanged. -/
def filter_and_sort_options (options : List TransportOption) (preference : String) :
    List TransportOption :=
  if preference = "plane" then
    options.filter (fun o => decide (o.kind = TransportType.plane))
  else if preference = "train" then
    options.filter (fun o => decide (o.kind = TransportType.train))
  else if preference = "plane_first" then
    py_sorted (fun a b =>
      decide ((if a.kind = TransportType.plane then 0 else 1 : Nat) ≤
        (if b.kind = TransportType.plane then 0 else 1))) options
  else if preference = "train_first" then
    py_sorted (fun a b =>
      decide ((if a.kind = TransportType.train then 0 else 1 : Nat) ≤
        (if b.kind = TransportType.train then 0 else 1))) options
  else options

theorem stable_insert_front {α : Type} (le : α → α → Bool) (x : α) (l : List α)
    (h : ∀ y ∈ l, le x y = true) : stable_insert le x l = x :: l := by
  cases l with
  | nil => rfl
  | cons y ys =>
    simp only [stable_insert, if_pos (h y (by simp))]

theorem stable_insert_skip {α : Type} (le : α → α → Bool) (x : α) (A B : List α)
    (h : ∀ a ∈ A, le x a = false) :
    stable_insert le x (A ++ B) = A ++ stable_insert le x B := by
  induction A with
  | nil => simp
  | cons a A' ih =>
    simp only [List.cons_append, stable_insert, h a (by simp)]
    simp only [Bool.false_eq_true, if_false, List.cons.injEq, true_and]
    exact ih (fun a' ha' => h a' (by simp [ha']))

/-- A stable sort by a two-valued key (0 for elements satisfying `p`, 1
otherwise) is exactly: the elements satisfying `p` in original order,
followed by the rest in original order. -/
theorem py_sorted_two_rank {α : Type} (p : α → Prop) [DecidablePred p] (l : List α) :
    py_sorted (fun a b =>
        decide ((if p a then 0 else 1 : Nat) ≤ (if p b then 0 else 1))) l =
      l.filter (fun a => decide (p a)) ++ l.filter (fun a => !decide (p a)) := by
  induction l with
  | nil => rfl
  | cons x xs ih =>
    simp only [py_sorted, ih]
    by_cases hx : p x
    · rw [stable_insert_front]
      · simp [List.filter_cons, hx]
      · intro y _
        simp [hx]
    · rw [stable_insert_skip]
      · rw [stable_insert_front]
        · simp [List.filter_cons, hx]
        · intro y hy
          simp only [List.mem_filter, Bool.not_eq_true', decide_eq_false_iff_not] at hy
          simp [hx, hy.2]
      · intro a ha
        simp only [List.mem_filter, decide_eq_true_eq] at ha
        simp [hx, ha.2]

/-- A train option used in concrete scenarios. -/
def train_option : TransportOption :=
  ⟨TransportType.train, "T1", 0, 60, 1, some "uid-t1", some "c1", some "c2", none, none⟩

/-- C8 counterexample: the source matches the preference strings
`"plane"`/`"train"`, not `"plane_only"`/`"train_only"`; with preference
`"plane_only"` the fall-through branch returns the input unchanged, so a
train option survives where the claim demands only plane options. -/
theorem filter_and_sort_c8_counterexample :
    filter_and_sort_options [train_option] "plane_only" = [train_option] ∧
    train_option.kind ≠ TransportType.plane := by
  refine ⟨rfl, by decide⟩

/-- C8 amended: `filter_and_sort_options` with preference `"plane"`
(resp. `"train"`) — the strings the dialogue layer supplies for the
only-this-kind choices — returns exactly the options of that kind in
their original relative order; with `"plane_first"` (resp.
`"train_first"`) it returns the options of the named kind in original
order followed by all others in original order (the stable sort by a 0/1
key); with any other preference string (including `"plane_only"`,
`"train_only"` and `"any"`) it returns the input unchanged. -/
theorem filter_and_sort_options_spec (options : List TransportOption) (preference : String) :
    (preference = "plane" →
      filter_and_sort_options options preference =
        options.filter (fun o => decide (o.kind = TransportType.plane))) ∧
    (preference = "train" →
      filter_and_sort_options options preference =
        options.filter (fun o => decide (o.kind = TransportType.train))) ∧
    (preference = "plane_first" →
      filter_and_sort_options options preference =
        options.filter (fun o => decide (o.kind = TransportType.plane)) ++
          options.filter (fun o => !decide (o.kind = TransportType.plane))) ∧
    (preference = "train_first" →
      filter_and_sort_options options preference =
        options.filter (fun o => decide (o.kind = TransportType.train)) ++
          options.filter (fun o => !decide (o.kind = TransportType.train))) ∧
    (preference ∉ ["plane", "train", "plane_first", "train_first"] →
      filter_and_sort_options options preference = options) := by
  refine ⟨?_, ?_, ?_, ?_, ?_⟩
  · intro h; simp [filter_and_sort_options, h]
  · intro h; simp [filter_and_sort_options, h]
  · intro h
    simp only [filter_and_sort_options, h]
    norm_num
    exact py_sorted_two_rank (fun o => o.kind = TransportType.plane) options
  · intro h
    simp only [filter_and_sort_options, h]
    norm_num
    exact py_sorted_two_rank (fun o => o.kind = TransportType.train) options
  · intro h
    simp only [List.mem_cons, List.mem_singleton, not_or] at h
    obtain ⟨h1, h2, h3, h4, _⟩ := h
    simp [filter_and_sort_options, h1, h2, h3, h4]

/-- A plane option used in concrete scenarios. -/
def plane_option : TransportOption :=
  ⟨TransportType.plane, "P1", 30, 90, 1, some "uid-p1", some "c1", some "c2", none, none⟩

/-- Witness for the amended C8 on a mixed two-option list. -/
theorem filter_and_sort_options_spec_witness :
    ("plane_first" = "plane" →
      filter_and_sort_options [train_option, plane_option] "plane_first" =
        [train_option, plane_option].filter (fun o => decide (o.kind = TransportType.plane))) ∧
    ("plane_first" = "train" →
      filter_and_sort_options [train_option, plane_option] "plane_first" =
        [train_option, plane_option].filter (fun o => decide (o.kind = TransportType.train))) ∧
    ("plane_first" = "plane_first" →
      filter_and_sort_options [train_option, plane_option] "plane_first" =
        [train_option, plane_option].filter (fun o => decide (o.kind = TransportType.plane)) ++
          [train_option, plane_option].filter
            (fun o => !decide (o.kind = TransportType.plane))) ∧
    ("plane_first" = "train_first" →
      filter_and_sort_options [train_option, plane_option] "plane_first" =
        [train_option, plane_option].filter (fun o => decide (o.kind = TransportType.train)) ++
          [train_option, plane_option].filter
            (fun o => !decide (o.kind = TransportType.train))) ∧
    ("plane_first" ∉ ["plane", "train", "plane_first", "train_first"] →
      filter_and_sort_options [train_option, plane_option] "plane_first" =
        [train_option, plane_option]) :=
  filter_and_sort_options_spec [train_option, plane_option] "plane_first"

/-- `filter_and_sort_options` with its effect on the argument made
explicit: the first component is the state of the caller's list after
the call, the second the returned list.  The source builds its results
with list comprehensions and `sorted(...)`, both of which allocate fresh
lists and leave the argument untouched; the fall-through branch returns
the argument itself (aliasing, not mutation). -/
def filter_and_sort_options_state (options : List TransportOption) (preference : String) :
    List TransportOption × List TransportOption :=
  if preference = "plane" then
    (options, options.filter (fun o => decide (o.kind = TransportType.plane)))
  else if preference = "train" then
    (options, options.filter (fun o => decide (o.kind = TransportType.train)))
  else if preference = "plane_first" then
    (options, py_sorted (fun a b =>
      decide ((if a.kind = TransportType.plane then 0 else 1 : Nat) ≤
        (if b.kind = TransportType.plane then 0 else 1))) options)
  else if preference = "train_first" then
    (options, py_sorted (fun a b =>
      decide ((if a.kind = TransportType.train then 0 else 1 : Nat) ≤
        (if b.kind = TransportType.train then 0 else 1))) options)
  else (options, options)

/-- C10: `filter_and_sort_options` never mutates its input: in every
branch the caller's list is unchanged after the call, and the returned
value is the one computed by the pure function. -/
theorem filter_and_sort_options_no_mutation (options : List TransportOption)
    (preference : String) :
    (filter_and_sort_options_state options preference).1 = options ∧
    (filter_and_sort_options_state options preference).2 =
      filter_and_sort_options options preference := by
  unfold filter_and_sort_options_state filter_and_sort_options
  by_cases h1 : preference = "plane" <;>
    by_cases h2 : preference = "train" <;>
      by_cases h3 : preference = "plane_first" <;>
        by_cases h4 : preference = "train_first" <;>
          simp [h1, h2, h3, h4]

/-! ## transport.py: fetch_real_options -/

/-- `_collect_dates` (transport.py): every calendar day from the day of
`window_start` to the day of `window_end` inclusive; empty when the
start day is after the end day.  The source formats each day as a
`YYYY-MM-DD` string, a bijection on dates, so days stand in for the
strings. -/
def collect_dates (window_start window_end : Int) : List Int :=
  (List.range (Int.fdiv window_end 1440 + 1 - Int.fdiv window_start 1440).toNat).map
    (fun k : Nat => Int.fdiv window_start 1440 + (k : Int))

/-- The dedup key of `fetch_real_options`:
`(opt.thread_uid or opt.title) + "|" + opt.depart_time.isoformat()`.
ISO timestamps contain no `"|"` and `isoformat` is injective, so the
concatenated string is faithfully modelled by the pair. -/
def dedup_key (o : TransportOption) : String × Int :=
  (py_str_or o.thread_uid o.title, o.depart_time)

/-- One iteration of the window-filter/dedup loop of
`fetch_real_options`: skip an option departing before the window or
arriving after it, skip an option whose key was already seen, otherwise
record the key and append the option. -/
def dedup_step (window_start window_end : Int)
    (st : List (String × Int) × List TransportOption) (opt : TransportOption) :
    List (String × Int) × List TransportOption :=
  if opt.depart_time < window_start then st
  else if window_end < opt.arrive_time then st
  else if dedup_key opt ∈ st.1 then st
  else (st.1 ++ [dedup_key opt], st.2 ++ [opt])

/-- The option survives the window filter:
`window_start <= depart_time` and `arrive_time <= window_end`. -/
def in_window (ws we : Int) (o : TransportOption) : Bool :=
  decide (ws ≤ o.depart_time) && decide (o.arrive_time ≤ we)

/-- `from_codes.city_code or (from_codes.stations[0] if from_codes.stations else None)`
(transport.py): the primary code used for the search, with Python
truthiness on the city code. -/
def place_primary_code (pc : PlaceCodes) : Option String :=
  match pc.city_code with
  | some s => if s = "" then pc.stations.head? else some s
  | none => pc.stations.head?

/-- `fetch_real_options` (transport.py).  Explicit parameters for the
ambient state and I/O: `api_key` is `settings.YANDEX_RASP_API_KEY`
(empty string for unset — Python falsy), `cache` the state of the
module-level `_city_cache`, `suggest` the `suggest_place` oracle, and
`provider` the search endpoint as a function of origin code, destination
code, date, transport type and request offset.  The body mirrors the
source: resolve both cities threading the cache, return `[]` when the
key is missing or either city has no usable code, enumerate the window's
dates, for each date query `plane` then `train` through the paginated
search, filter each parsed option to the window, deduplicate keeping
first occurrences, and sort by departure time (Python's stable
`list.sort`). -/
def fetch_real_options (api_key : String) (cache : List (String × PlaceCodes))
    (suggest : String → PlaceCodes)
    (provider : String → String → Int → String → Int → RawPage)
    (from_city to_city : String) (window_start window_end : Int) :
    List TransportOption :=
  if api_key = "" then []
  else
    let r1 := resolve_place_codes cache suggest from_city
    let r2 := resolve_place_codes r1.cache suggest to_city
    match place_primary_code r1.codes, place_primary_code r2.codes with
    | some from_code, some to_code =>
      if from_code = "" ∨ to_code = "" then []
      else
        let allow_to_codes := to_code :: r2.codes.stations
        let st := (collect_dates window_start window_end).foldl (fun st date =>
          (["plane", "train"]).foldl (fun st transport =>
            (search_all_options_for_date
                (fun offset => provider from_code to_code date transport offset)
                allow_to_codes).1.foldl (dedup_step window_start window_end) st) st)
          ([], [])
        py_sorted (fun a b => decide (a.depart_time ≤ b.depart_time)) st.2
    | _, _ => []

/-- The stream of parsed options `fetch_real_options` iterates over, in
query order (dates ascending, plane before train, pages in offset
order), before window filtering and deduplication; empty in each
early-return branch. -/
def fetch_query_stream (api_key : String) (cache : List (String × PlaceCodes))
    (suggest : String → PlaceCodes)
    (provider : String → String → Int → String → Int → RawPage)
    (from_city to_city : String) (window_start window_end : Int) :
    List TransportOption :=
  if api_key = "" then []
  else
    let r1 := resolve_place_codes cache suggest from_city
    let r2 := resolve_place_codes r1.cache suggest to_city
    match place_primary_code r1.codes, place_primary_code r2.codes with
    | some from_code, some to_code =>
      if from_code = "" ∨ to_code = "" then []
      else
        let allow_to_codes := to_code :: r2.codes.stations
        (collect_dates window_start window_end).flatMap (fun date =>
          (["plane", "train"]).flatMap (fun transport =>
            (search_all_options_for_date
                (fun offset => provider from_code to_code date transport offset)
                allow_to_codes).1))
    | _, _ => []

theorem foldl_flatMap {α β σ : Type} (f : σ → α → σ) (g : β → List α) :
    ∀ (l : List β) (init : σ),
      (l.flatMap g).foldl f init = l.foldl (fun st b => (g b).foldl f st) init := by
  intro l
  induction l with
  | nil => intro init; rfl
  | cons b l ih =>
    intro init
    simp only [List.flatMap_cons, List.foldl_append, List.foldl_cons]
    exact ih ((g b).foldl f init)

theorem fetch_real_options_eq_stream_fold (api_key : String)
    (cache : List (String × PlaceCodes)) (suggest : String → PlaceCodes)
    (provider : String → String → Int → String → Int → RawPage)
    (from_city to_city : String) (ws we : Int) :
    fetch_real_options api_key cache suggest provider from_city to_city ws we =
      py_sorted (fun a b => decide (a.depart_time ≤ b.depart_time))
        (((fetch_query_stream api_key cache suggest provider from_city to_city ws we).foldl
          (dedup_step ws we) ([], []))).2 := by
  unfold fetch_real_options fetch_query_stream
  by_cases hk : api_key = ""
  · simp [hk, py_sorted]
  · simp only [if_neg hk]
    rcases place_primary_code (resolve_place_codes cache suggest from_city).codes with _ | fc
    · rfl
    rcases place_primary_code
        (resolve_place_codes (resolve_place_codes cache suggest from_city).cache
          suggest to_city).codes with _ | tc
    · rfl
    by_cases hemp : fc = "" ∨ tc = ""
    · simp only [if_pos hemp, py_sorted]
    · simp only [if_neg hemp, foldl_flatMap]

theorem dedup_step_skip_early (ws we : Int)
    (st : List (String × Int) × List TransportOption) (x : TransportOption)
    (h : x.depart_time < ws) : dedup_step ws we st x = st := by
  simp [dedup_step, h]

theorem dedup_step_skip_late (ws we : Int)
    (st : List (String × Int) × List TransportOption) (x : TransportOption)
    (h1 : ¬ x.depart_time < ws) (h2 : we < x.arrive_time) :
    dedup_step ws we st x = st := by
  simp [dedup_step, h1, h2]

theorem dedup_step_skip_seen (ws we : Int)
    (st : List (String × Int) × List TransportOption) (x : TransportOption)
    (h1 : ¬ x.depart_time < ws) (h2 : ¬ we < x.arrive_time)
    (h3 : dedup_key x ∈ st.1) : dedup_step ws we st x = st := by
  simp [dedup_step, h1, h2, h3]

theorem dedup_step_push (ws we : Int)
    (st : List (String × Int) × List TransportOption) (x : TransportOption)
    (h1 : ¬ x.depart_time < ws) (h2 : ¬ we < x.arrive_time)
    (h3 : dedup_key x ∉ st.1) :
    dedup_step ws we st x = (st.1 ++ [dedup_key x], st.2 ++ [x]) := by
  simp [dedup_step, h1, h2, h3]

theorem dedup_fold_spec (ws we : Int) :
    ∀ (stream : List TransportOption) (seen : List (String × Int))
      (acc : List TransportOption),
      seen = acc.map dedup_key →
      ((stream.foldl (dedup_step ws we) (seen, acc)).1 =
        (stream.foldl (dedup_step ws we) (seen, acc)).2.map dedup_key) ∧
      (∀ o ∈ (stream.foldl (dedup_step ws we) (seen, acc)).2,
        o ∈ acc ∨ (ws ≤ o.depart_time ∧ o.arrive_time ≤ we)) ∧
      (∀ o ∈ (stream.foldl (dedup_step ws we) (seen, acc)).2,
        o ∈ acc ∨ (dedup_key o ∉ seen ∧
          (stream.filter (in_window ws we)).find?
            (fun x => decide (dedup_key x = dedup_key o)) = some o)) ∧
      (∀ o ∈ stream, in_window ws we o = true →
        dedup_key o ∈ (stream.foldl (dedup_step ws we) (seen, acc)).1) ∧
      (∀ k ∈ seen, k ∈ (stream.foldl (dedup_step ws we) (seen, acc)).1) ∧
      (seen.Nodup → (stream.foldl (dedup_step ws we) (seen, acc)).1.Nodup) := by
  intro stream
  induction stream with
  | nil =>
    intro seen acc h
    simp only [List.foldl_nil]
    refine ⟨h, ?_, ?_, ?_, ?_, ?_⟩
    · intro o ho; exact Or.inl ho
    · intro o ho; exact Or.inl ho
    · intro o ho; simp at ho
    · intro k hk; exact hk
    · intro hnd; exact hnd
  | cons x xs ih =>
    intro seen acc h
    simp only [List.foldl_cons]
    by_cases h1 : x.depart_time < ws
    · have hst : dedup_step ws we (seen, acc) x = (seen, acc) :=
        dedup_step_skip_early ws we (seen, acc) x h1
      rw [hst]
      have hwx : in_window ws we x = false := by
        have hd : decide (ws ≤ x.depart_time) = false := decide_eq_false (by omega)
        simp [in_window, hd]
      obtain ⟨i1, i2, i3, i4, i5, i6⟩ := ih seen acc h
      refine ⟨i1, i2, ?_, ?_, i5, i6⟩
      · intro o ho
        rcases i3 o ho with hacc | ⟨hns, hf⟩
        · exact Or.inl hacc
        · refine Or.inr ⟨hns, ?_⟩
          rw [List.filter_cons, hwx]
          simpa using hf
      · intro o ho hw
        rcases List.mem_cons.mp ho with rfl | ho'
        · rw [hwx] at hw; cases hw
        · exact i4 o ho' hw
    · by_cases h2 : we < x.arrive_time
      · have hst : dedup_step ws we (seen, acc) x = (seen, acc) :=
          dedup_step_skip_late ws we (seen, acc) x h1 h2
        rw [hst]
        have hwx : in_window ws we x = false := by
          have ha : decide (x.arrive_time ≤ we) = false := decide_eq_false (by omega)
          simp [in_window, ha]
        obtain ⟨i1, i2, i3, i4, i5, i6⟩ := ih seen acc h
        refine ⟨i1, i2, ?_, ?_, i5, i6⟩
        · intro o ho
          rcases i3 o ho with hacc | ⟨hns, hf⟩
          · exact Or.inl hacc
          · refine Or.inr ⟨hns, ?_⟩
            rw [List.filter_cons, hwx]
            simpa using hf
        · intro o ho hw
          rcases List.mem_cons.mp ho with rfl | ho'
          · rw [hwx] at hw; cases hw
          · exact i4 o ho' hw
      · have hwx : in_window ws we x = true := by
          simp only [in_window, Bool.and_eq_true, decide_eq_true_eq]
          omega
        by_cases h3 : dedup_key x ∈ seen
        · have hst : dedup_step ws we (seen, acc) x = (seen, acc) :=
            dedup_step_skip_seen ws we (seen, acc) x h1 h2 h3
          rw [hst]
          obtain ⟨i1, i2, i3, i4, i5, i6⟩ := ih seen acc h
          refine ⟨i1, i2, ?_, ?_, i5, i6⟩
          · intro o ho
            rcases i3 o ho with hacc | ⟨hns, hf⟩
            · exact Or.inl hacc
            · refine Or.inr ⟨hns, ?_⟩
              rw [List.filter_cons, hwx]
              simp only [if_true]
              rw [List.find?_cons_of_neg]
              · exact hf
              · simp only [decide_eq_true_eq]
                intro heq
                exact hns (heq ▸ h3)
          · intro o ho hw
            rcases List.mem_cons.mp ho with rfl | ho'
            · exact i5 _ h3
            · exact i4 o ho' hw
        · have hst : dedup_step ws we (seen, acc) x =
              (seen ++ [dedup_key x], acc ++ [x]) :=
            dedup_step_push ws we (seen, acc) x h1 h2 h3
          rw [hst]
          have h' : seen ++ [dedup_key x] = (acc ++ [x]).map dedup_key := by
            rw [List.map_append, h]
            rfl
          obtain ⟨i1, i2, i3, i4, i5, i6⟩ := ih (seen ++ [dedup_key x]) (acc ++ [x]) h'
          refine ⟨i1, ?_, ?_, ?_, ?_, ?_⟩
          · intro o ho
            rcases i2 o ho with hacc | hwin
            · rcases List.mem_append.mp hacc with ha | hx
              · exact Or.inl ha
              · rcases List.mem_singleton.mp hx with rfl
                exact Or.inr ⟨by omega, by omega⟩
            · exact Or.inr hwin
          · intro o ho
            rcases i3 o ho with hacc | ⟨hns, hf⟩
            · rcases List.mem_append.mp hacc with ha | hx
              · exact Or.inl ha
              · rcases List.mem_singleton.mp hx with rfl
                refine Or.inr ⟨h3, ?_⟩
                rw [List.filter_cons, hwx]
                simp only [if_true]
                rw [List.find?_cons_of_pos]
                simp
            · refine Or.inr ⟨fun hseen => hns (List.mem_append.mpr (Or.inl hseen)), ?_⟩
              rw [List.filter_cons, hwx]
              simp only [if_true]
              rw [List.find?_cons_of_neg]
              · exact hf
              · simp only [decide_eq_true_eq]
                intro heq
                apply hns
                rw [heq]
                exact List.mem_append.mpr (Or.inr (by simp))
          · intro o ho hw
            rcases List.mem_cons.mp ho with rfl | ho'
            · exact i5 _ (List.mem_append.mpr (Or.inr (by simp)))
            · exact i4 o ho' hw
          · intro k hk
            exact i5 k (List.mem_append.mpr (Or.inl hk))
          · intro hnd
            apply i6
            refine (List.nodup_append).mpr ⟨hnd, List.nodup_singleton _, ?_⟩
            intro a ha hax
            rw [List.mem_singleton] at hax
            subst hax
            exact h3 ha

theorem stable_insert_perm {α : Type} (le : α → α → Bool) (x : α) (l : List α) :
    (stable_insert le x l).Perm (x :: l) := by
  induction l with
  | nil => exact List.Perm.refl _
  | cons y ys ih =>
    by_cases hxy : le x y = true
    · simp [stable_insert, hxy]
    · simp only [stable_insert, if_neg hxy]
      exact (ih.cons y).trans (List.Perm.swap x y ys)

theorem py_sorted_perm {α : Type} (le : α → α → Bool) (l : List α) :
    (py_sorted le l).Perm l := by
  induction l with
  | nil => exact List.Perm.refl _
  | cons x xs ih =>
    exact (stable_insert_perm le x (py_sorted le xs)).trans (ih.cons x)

theorem stable_insert_pairwise {α : Type} (le : α → α → Bool)
    (htot : ∀ a b, le a b = false → le b a = true)
    (htrans : ∀ a b c, le a b = true → le b c = true → le a c = true)
    (x : α) (l : List α) (hl : l.Pairwise (fun a b => le a b = true)) :
    (stable_insert le x l).Pairwise (fun a b => le a b = true) := by
  induction l with
  | nil => simp [stable_insert]
  | cons y ys ih =>
    rw [List.pairwise_cons] at hl
    by_cases hxy : le x y = true
    · simp only [stable_insert, if_pos hxy]
      rw [List.pairwise_cons]
      refine ⟨?_, List.pairwise_cons.mpr hl⟩
      intro z hz
      rcases List.mem_cons.mp hz with rfl | hz'
      · exact hxy
      · exact htrans x y z hxy (hl.1 z hz')
    · simp only [stable_insert, if_neg hxy]
      rw [List.pairwise_cons]
      refine ⟨?_, ih hl.2⟩
      intro z hz
      have hz' := (stable_insert_perm le x ys).mem_iff.mp hz
      rcases List.mem_cons.mp hz' with rfl | hz''
      · refine htot z y ?_
        revert hxy
        cases le z y <;> simp
      · exact hl.1 z hz''

theorem py_sorted_pairwise {α : Type} (le : α → α → Bool)
    (htot : ∀ a b, le a b = false → le b a = true)
    (htrans : ∀ a b c, le a b = true → le b c = true → le a c = true)
    (l : List α) :
    (py_sorted le l).Pairwise (fun a b => le a b = true) := by
  induction l with
  | nil => simp [py_sorted]
  | cons x xs ih =>
    exact stable_insert_pairwise le htot htrans x (py_sorted le xs) ih

theorem fetch_real_options_props (api_key : String)
    (cache : List (String × PlaceCodes)) (suggest : String → PlaceCodes)
    (provider : String → String → Int → String → Int → RawPage)
    (from_city to_city : String) (ws we : Int) :
    (fetch_real_options api_key cache suggest provider from_city to_city ws we).Pairwise
      (fun a b => a.depart_time ≤ b.depart_time) ∧
    (∀ o ∈ fetch_real_options api_key cache suggest provider from_city to_city ws we,
      ws ≤ o.depart_time ∧ o.arrive_time ≤ we) ∧
    ((fetch_real_options api_key cache suggest provider from_city to_city ws we).map
      dedup_key).Nodup ∧
    (∀ o ∈ fetch_real_options api_key cache suggest provider from_city to_city ws we,
      ((fetch_query_stream api_key cache suggest provider from_city to_city ws we).filter
        (in_window ws we)).find? (fun x => decide (dedup_key x = dedup_key o)) = some o) ∧
    (∀ o ∈ fetch_query_stream api_key cache suggest provider from_city to_city ws we,
      in_window ws we o = true →
      dedup_key o ∈ (fetch_real_options api_key cache suggest provider
        from_city to_city ws we).map dedup_key) := by
  have heq := fetch_real_options_eq_stream_fold api_key cache suggest provider
    from_city to_city ws we
  set S := fetch_query_stream api_key cache suggest provider from_city to_city ws we with hS
  obtain ⟨d1, d2, d3, d4, d5, d6⟩ := dedup_fold_spec ws we S [] [] rfl
  set F := S.foldl (dedup_step ws we) ([], []) with hF
  have hperm : (py_sorted (fun a b => decide (a.depart_time ≤ b.depart_time)) F.2).Perm F.2 :=
    py_sorted_perm _ _
  rw [heq]
  have htot : ∀ a b : TransportOption,
      decide (a.depart_time ≤ b.depart_time) = false →
      decide (b.depart_time ≤ a.depart_time) = true := by
    intro a b hab
    simp only [decide_eq_false_iff_not] at hab
    simp only [decide_eq_true_eq]
    omega
  have htrans : ∀ a b c : TransportOption,
      decide (a.depart_time ≤ b.depart_time) = true →
      decide (b.depart_time ≤ c.depart_time) = true →
      decide (a.depart_time ≤ c.depart_time) = true := by
    intro a b c hab hbc
    simp only [decide_eq_true_eq] at hab hbc ⊢
    omega
  refine ⟨?_, ?_, ?_, ?_, ?_⟩
  · have hp := py_sorted_pairwise (fun a b => decide (a.depart_time ≤ b.depart_time))
      htot htrans F.2
    exact hp.imp (fun hab => by simpa using hab)
  · intro o ho
    have ho2 : o ∈ F.2 := hperm.mem_iff.mp ho
    rcases d2 o ho2 with hin | hwin
    · simp at hin
    · exact hwin
  · have hn : F.2.map dedup_key |>.Nodup := by
      rw [← d1]
      exact d6 List.nodup_nil
    exact ((hperm.map dedup_key).symm).nodup hn
  · intro o ho
    have ho2 : o ∈ F.2 := hperm.mem_iff.mp ho
    rcases d3 o ho2 with hin | ⟨_, hf⟩
    · simp at hin
    · exact hf
  · intro o ho hw
    have hk := d4 o ho hw
    rw [d1] at hk
    exact ((hperm.map dedup_key).mem_iff).mpr hk

/-- C2: for every window, every resolver/cache state and every sequence
of provider pages, the list returned by `fetch_real_options` is sorted
ascending by departure time globally across the result; contains only
options with `depart_time >= windowStart` and `arrive_time <= windowEnd`
(both boundaries inclusive); carries pairwise-distinct dedup keys
(thread uid, or title if none, paired with the departure timestamp);
each returned option is the first occurrence of its key in the
window-filtered query stream (first occurrence wins, in query order);
and every window-surviving option of the query stream — in particular
one departing exactly at `windowStart` or arriving exactly at
`windowEnd` — contributes its key to the result. -/
theorem fetch_real_options_contract (api_key : String)
    (cache : List (String × PlaceCodes)) (suggest : String → PlaceCodes)
    (provider : String → String → Int → String → Int → RawPage)
    (from_city to_city : String) (ws we : Int) :
    (fetch_real_options api_key cache suggest provider from_city to_city ws we).Pairwise
      (fun a b => a.depart_time ≤ b.depart_time) ∧
    (∀ o ∈ fetch_real_options api_key cache suggest provider from_city to_city ws we,
      ws ≤ o.depart_time ∧ o.arrive_time ≤ we) ∧
    ((fetch_real_options api_key cache suggest provider from_city to_city ws we).map
      dedup_key).Nodup ∧
    (∀ o ∈ fetch_real_options api_key cache suggest provider from_city to_city ws we,
      ((fetch_query_stream api_key cache suggest provider from_city to_city ws we).filter
        (in_window ws we)).find? (fun x => decide (dedup_key x = dedup_key o)) = some o) ∧
    (∀ o ∈ fetch_query_stream api_key cache suggest provider from_city to_city ws we,
      in_window ws we o = true →
      dedup_key o ∈ (fetch_real_options api_key cache suggest provider
        from_city to_city ws we).map dedup_key) :=
  fetch_real_options_props api_key cache suggest provider from_city to_city ws we

/-- Resolver cache with cities `A` and `B` already resolved to `c1` and
`c2` (keys as `_normalize_city_key` produces them). -/
def cacheAB : List (String × PlaceCodes) := [("a", ⟨some "c1", []⟩), ("b", ⟨some "c2", []⟩)]

/-- A well-formed provider segment: a plane departing at minute 1500 and
arriving at minute 1560, destination `c2`. -/
def seg_normal : RawSegment :=
  ⟨some "plane", some "P100", none, some "uid100", some 1500, some 1560, none,
   some "c1", some "c2", none, none⟩

/-- A provider returning `seg_normal` on the first plane page of any
date and nothing else. -/
def provider_normal : String → String → Int → String → Int → RawPage :=
  fun _ _ _ transport offset =>
    if transport = "plane" ∧ offset = 0 then ⟨[seg_normal], none⟩ else ⟨[], none⟩

/-- Witness for C2 at a concrete provider and the window covering day 1. -/
theorem fetch_real_options_contract_witness :
    (fetch_real_options "k" cacheAB suggest_c999 provider_normal "A" "B" 1440 2880).Pairwise
      (fun a b => a.depart_time ≤ b.depart_time) ∧
    (∀ o ∈ fetch_real_options "k" cacheAB suggest_c999 provider_normal "A" "B" 1440 2880,
      1440 ≤ o.depart_time ∧ o.arrive_time ≤ 2880) ∧
    ((fetch_real_options "k" cacheAB suggest_c999 provider_normal "A" "B" 1440 2880).map
      dedup_key).Nodup ∧
    (∀ o ∈ fetch_real_options "k" cacheAB suggest_c999 provider_normal "A" "B" 1440 2880,
      ((fetch_query_stream "k" cacheAB suggest_c999 provider_normal "A" "B" 1440 2880).filter
        (in_window 1440 2880)).find? (fun x => decide (dedup_key x = dedup_key o)) = some o) ∧
    (∀ o ∈ fetch_query_stream "k" cacheAB suggest_c999 provider_normal "A" "B" 1440 2880,
      in_window 1440 2880 o = true →
      dedup_key o ∈ (fetch_real_options "k" cacheAB suggest_c999 provider_normal
        "A" "B" 1440 2880).map dedup_key) :=
  fetch_real_options_contract "k" cacheAB suggest_c999 provider_normal "A" "B" 1440 2880

theorem segment_to_option_times (seg : RawSegment) (o : TransportOption)
    (h : segment_to_option seg = some o) :
    seg.departure = some o.depart_time ∧ seg.arrival = some o.arrive_time := by
  unfold segment_to_option at h
  rcases hd : seg.departure with _ | dep
  · rw [hd] at h; simp at h
  rcases ha : seg.arrival with _ | arr
  · rw [hd, ha] at h; simp at h
  rw [hd, ha] at h
  simp only [Option.some.injEq] at h
  subst h
  exact ⟨rfl, rfl⟩

theorem mem_parse_segments (allow : List String) (o : TransportOption) :
    ∀ segs : List RawSegment, o ∈ parse_segments segs allow →
      ∃ seg ∈ segs, segment_to_option seg = some o := by
  intro segs
  induction segs with
  | nil => intro ho; simp [parse_segments] at ho
  | cons seg rest ih =>
    intro ho
    by_cases hskip : (!allow.isEmpty && !opt_mem seg.to_code allow) = true
    · rw [parse_segments, if_pos hskip] at ho
      obtain ⟨s, hs, hso⟩ := ih ho
      exact ⟨s, List.mem_cons_of_mem seg hs, hso⟩
    · rw [parse_segments, if_neg hskip] at ho
      rcases hopt : segment_to_option seg with _ | opt
      · rw [hopt] at ho
        obtain ⟨s, hs, hso⟩ := ih ho
        exact ⟨s, List.mem_cons_of_mem seg hs, hso⟩
      · rw [hopt] at ho
        rcases List.mem_cons.mp ho with rfl | ho'
        · exact ⟨seg, List.mem_cons_self seg rest, hopt⟩
        · obtain ⟨s, hs, hso⟩ := ih ho'
          exact ⟨s, List.mem_cons_of_mem seg hs, hso⟩

theorem mem_search_pages (pages : Int → RawPage) (allow : List String) :
    ∀ (fuel : Nat) (off : Int) (o : TransportOption),
      o ∈ (search_pages pages allow fuel off).1 →
      ∃ off' : Int, o ∈ parse_segments (pages off').segments allow := by
  intro fuel
  induction fuel with
  | zero => intro off o ho; simp [search_pages] at ho
  | succ f ih =>
    intro off o ho
    rcases ht : (pages off).total with _ | total
    · simp only [search_pages, ht] at ho
      exact ⟨off, ho⟩
    · by_cases hstop : off + 100 ≥ total ∨ parse_segments (pages off).segments allow = []
      · simp only [search_pages, ht, if_pos hstop] at ho
        exact ⟨off, ho⟩
      · simp only [search_pages, ht, if_neg hstop, List.mem_append] at ho
        rcases ho with h | h
        · exact ⟨off, h⟩
        · exact ih (off + 100) o h

theorem fetch_query_stream_cases (api_key : String)
    (cache : List (String × PlaceCodes)) (suggest : String → PlaceCodes)
    (provider : String → String → Int → String → Int → RawPage)
    (from_city to_city : String) (ws we : Int) :
    fetch_query_stream api_key cache suggest provider from_city to_city ws we = [] ∨
    ∃ (fc tc : String) (allow : List String),
      fetch_query_stream api_key cache suggest provider from_city to_city ws we =
        (collect_dates ws we).flatMap (fun date =>
          (["plane", "train"]).flatMap (fun transport =>
            (search_all_options_for_date
              (fun offset => provider fc tc date transport offset) allow).1)) := by
  unfold fetch_query_stream
  by_cases hk : api_key = ""
  · left; simp [hk]
  simp only [if_neg hk]
  rcases place_primary_code (resolve_place_codes cache suggest from_city).codes with _ | fc
  · left; rfl
  rcases place_primary_code
      (resolve_place_codes (resolve_place_codes cache suggest from_city).cache
        suggest to_city).codes with _ | tc
  · left; rfl
  by_cases hemp : fc = "" ∨ tc = ""
  · left; exact if_pos hemp
  · right
    exact ⟨fc, tc,
      tc :: (resolve_place_codes (resolve_place_codes cache suggest from_city).cache
        suggest to_city).codes.stations, if_neg hemp⟩

theorem fetch_query_stream_depart_le_arrive (api_key : String)
    (cache : List (String × PlaceCodes)) (suggest : String → PlaceCodes)
    (provider : String → String → Int → String → Int → RawPage)
    (from_city to_city : String) (ws we : Int)
    (hwf : ∀ fc tc date transport offset,
      ∀ seg ∈ (provider fc tc date transport offset).segments,
      ∀ dep arr : Int, seg.departure = some dep → seg.arrival = some arr → dep ≤ arr) :
    ∀ o ∈ fetch_query_stream api_key cache suggest provider from_city to_city ws we,
      o.depart_time ≤ o.arrive_time := by
  intro o ho
  rcases fetch_query_stream_cases api_key cache suggest provider from_city to_city ws we
    with hnil | ⟨fc, tc, allow, hstream⟩
  · rw [hnil] at ho; simp at ho
  · rw [hstream] at ho
    simp only [List.mem_flatMap] at ho
    obtain ⟨date, _, ho⟩ := ho
    obtain ⟨transport, _, ho⟩ := ho
    obtain ⟨off', hparse⟩ := mem_search_pages
      (fun offset => provider fc tc date transport offset) allow 10 0 o ho
    obtain ⟨seg, hseg, hopt⟩ := mem_parse_segments allow o _ hparse
    obtain ⟨hd, ha⟩ := segment_to_option_times seg o hopt
    exact hwf fc tc date transport off' seg hseg o.depart_time o.arrive_time hd ha

/-- C3 amended: for every inverted window (`windowStart > windowEnd`)
and every provider whose route segments carry non-decreasing timestamps
(`departure <= arrival`, the well-formedness every real schedule entry
satisfies), `fetch_real_options` returns the empty list regardless of
how many entries the provider returns. -/
theorem fetch_real_options_inverted_window_empty (api_key : String)
    (cache : List (String × PlaceCodes)) (suggest : String → PlaceCodes)
    (provider : String → String → Int → String → Int → RawPage)
    (from_city to_city : String) (ws we : Int)
    (hinv : we < ws)
    (hwf : ∀ fc tc date transport offset,
      ∀ seg ∈ (provider fc tc date transport offset).segments,
      ∀ dep arr : Int, seg.departure = some dep → seg.arrival = some arr → dep ≤ arr) :
    fetch_real_options api_key cache suggest provider from_city to_city ws we = [] := by
  rw [List.eq_nil_iff_forall_not_mem]
  intro o ho
  obtain ⟨-, hwin, -, hfind, -⟩ :=
    fetch_real_options_props api_key cache suggest provider from_city to_city ws we
  have h2 := hwin o ho
  have hf := hfind o ho
  have hmem : o ∈ (fetch_query_stream api_key cache suggest provider
      from_city to_city ws we).filter (in_window ws we) :=
    List.mem_of_find?_eq_some hf
  have hstream := List.mem_of_mem_filter hmem
  have hle := fetch_query_stream_depart_le_arrive api_key cache suggest provider
    from_city to_city ws we hwf o hstream
  omega

/-- A provider returning a malformed "time travel" segment whose arrival
(minute 1440, i.e. 2025-11-11T00:00) precedes its departure (minute
1560, i.e. 2025-11-11T02:00). -/
def provider_time_travel : String → String → Int → String → Int → RawPage :=
  fun _ _ _ transport offset =>
    if transport = "plane" ∧ offset = 0 then
      ⟨[⟨some "plane", some "TT1", none, some "uid1", some 1560, some 1440, none,
         some "c1", some "c2", none, none⟩], none⟩
    else ⟨[], none⟩

/-- C3 counterexample: in the spec scenario's inverted window
(`windowStart` = 2025-11-11T02:00 = minute 1560 >
`windowEnd` = 2025-11-11T00:00 = minute 1440) the date enumeration is
non-empty (both bounds lie on day 1), and a provider entry departing at
exactly `windowStart` and arriving at exactly `windowEnd` passes both
window checks, so the result is not empty: the claim's "returns zero
options regardless of provider data" fails for a provider returning a
segment with arrival before departure. -/
theorem fetch_inverted_window_counterexample :
    (1440 : Int) < 1560 ∧
    (fetch_real_options "k" cacheAB suggest_c999 provider_time_travel
      "A" "B" 1560 1440).length = 1 := by
  refine ⟨by norm_num, by decide⟩

/-- Witness for the amended C3: with a well-formed provider the same
inverted window yields the empty list. -/
theorem fetch_real_options_inverted_window_empty_witness :
    fetch_real_options "k" cacheAB suggest_c999 provider_normal "A" "B" 1560 1440 = [] :=
  fetch_real_options_inverted_window_empty "k" cacheAB suggest_c999 provider_normal
    "A" "B" 1560 1440 (by norm_num)
    (by
      intro fc tc date transport offset seg hseg dep arr hd ha
      unfold provider_normal at hseg
      by_cases hc : transport = "plane" ∧ offset = 0
      · rw [if_pos hc] at hseg
        simp only [List.mem_singleton] at hseg
        subst hseg
        simp only [seg_normal, Option.some.injEq] at hd ha
        omega
      · rw [if_neg hc] at hseg
        simp at hseg)
